import Mathlib

/-!
Verification of the buysmart swap-to-position reconciliation engine.

Shallow embedding of the TypeScript sources:
  * `src/lib/swap-position-handler.ts` (current, strict variant):
    `handleSwapSuccess`, `extractPriceFromSwap`, `extractTransactionTimestamp`;
  * `src/components/dashboard/PositionsTable.tsx`: the real-time P&L
    computation inside `getPerformanceSummary`;
  * `src/app/components/Components.tsx`: the `isCreatingPosition`
    in-flight guard of `Home.handleSwapSuccess`;
  * `src/lib/coinbase-api.ts`: `getEthSpotPrice`.

Modelling conventions:
  * JavaScript numbers are modelled exactly over `ℚ`; `JsNum := Option ℚ`
    where `none` stands for NaN (and other non-finite values).
    IEEE-754 rounding is abstracted away: the code only parses decimal
    strings, divides, subtracts and compares, and the properties verified
    below concern those algebraic relationships.
  * `parseFloat` is modelled on plain decimal literals
    (sign, integer digits, fraction digits); exponent notation and the
    literal string Infinity are outside the model, since swap amounts are
    plain decimal strings.  An unparsable string yields `none` (NaN).
  * ISO-8601 `openedAt` strings are represented by their epoch-millisecond
    value, i.e. by what `new Date(s).getTime()` returns on them, as an `ℤ`.
  * Asynchrony (`setTimeout`, `async`/`await`) is flattened: one
    invocation of the handler is one evaluation of a pure function that
    returns the list of Position Store mutations it performed and the
    callback it invoked.  A thrown-and-caught exception becomes an
    `Except.error` value.
-/

namespace BuySmart

/-- A JavaScript number: `some q` is a finite value (modelled exactly as a
rational), `none` is NaN. -/
abbrev JsNum := Option ℚ

/-- JS division `x / y`.  NaN propagates; division by zero (which JS maps
to an infinity or NaN) is also modelled as `none` — every division site in
the embedded code is guarded by a strict positivity check on the divisor,
so this case is never exercised. -/
def jsDiv (x y : JsNum) : JsNum :=
  match x, y with
  | some a, some b => if b = 0 then none else some (a / b)
  | _, _ => none

/-- JS comparison `x > 0` as a Bool; false on NaN. -/
def jsGtZero (x : JsNum) : Bool :=
  match x with
  | some a => decide (0 < a)
  | none => false

/-- JS comparison `x <= 0` as a Bool; false on NaN (so a NaN price passes
the `ethPrice <= 0` guard in the handler). -/
def jsLeZero (x : JsNum) : Bool :=
  match x with
  | some a => decide (a ≤ 0)
  | none => false

/-- Value of a digit list read in base 10. -/
def digitsToNat (cs : List Char) : ℕ :=
  cs.foldl (fun a c => a * 10 + (c.toNat - 48)) 0

/-- Model of JS `parseFloat` on plain decimal literals: skip leading
whitespace, optional sign, longest prefix of digits, optional fraction.
Returns `none` (NaN) when no digit is consumed. -/
def jsParseFloat (s : String) : Option ℚ :=
  let cs := s.toList.dropWhile (fun c => c.isWhitespace)
  let signed : Bool × List Char :=
    match cs with
    | '-' :: r => (true, r)
    | '+' :: r => (false, r)
    | r => (false, r)
  let neg := signed.1
  let cs1 := signed.2
  let intDigits := cs1.takeWhile (fun c => c.isDigit)
  let rest := cs1.drop intDigits.length
  let fracDigits : List Char :=
    match rest with
    | '.' :: r => r.takeWhile (fun c => c.isDigit)
    | _ => []
  if intDigits.isEmpty && fracDigits.isEmpty then none
  else
    let v : ℚ :=
      (digitsToNat intDigits : ℚ) +
        (digitsToNat fracDigits : ℚ) / ((10 : ℚ) ^ fracDigits.length)
    some (if neg then -v else v)

/-- JS truthiness of an optional string field: present and non-empty. -/
def truthyStr (o : Option String) : Bool :=
  match o with
  | some s => decide (s ≠ "")
  | none => false

/-- A dynamically-typed JS field value, as far as the timestamp extractor
inspects it: a number, or some value of any other type. -/
inductive JsVal where
  | num (q : ℚ)
  | nonNum
deriving DecidableEq, Repr

/-- `SwapTransactionData` (swap-position-handler.ts).  The TS interface
also declares `price` and `executionPrice`, but the strict handler never
reads them, so they are omitted from the model; `timestamp` and
`blockTimestamp` arrive through the index signature. -/
structure SwapTransactionData where
  fromAmount : Option String := none
  toAmount : Option String := none
  timestamp : Option JsVal := none
  blockTimestamp : Option JsVal := none
deriving DecidableEq, Repr

/-- `SwapTokens` (swap-position-handler.ts). -/
structure SwapTokens where
  fromSymbol : String
  toSymbol : String
deriving DecidableEq, Repr

/-- the test that fromSymbol is USDC and toSymbol is ETH. -/
def isUSDCToETH (t : SwapTokens) : Bool :=
  decide (t.fromSymbol = "USDC") && decide (t.toSymbol = "ETH")

/-- the test that fromSymbol is ETH and toSymbol is USDC. -/
def isETHToUSDC (t : SwapTokens) : Bool :=
  decide (t.fromSymbol = "ETH") && decide (t.toSymbol = "USDC")

/-- The message of the error thrown by the strict `extractPriceFromSwap`. -/
def priceErrorMsg : String :=
  "Could not determine ETH price from swap transaction. Missing fromAmount or toAmount."

/-- `extractPriceFromSwap` (strict variant, swap-position-handler.ts).
The outer guard is the truthiness of both amount strings; inside it the
two direction branches each check positivity of the divisor amount and
return the quotient; all remaining control paths fall through to the
single `throw`. -/
def extractPriceFromSwap (d : SwapTransactionData) (t : SwapTokens) :
    Except String JsNum :=
  if truthyStr d.fromAmount && truthyStr d.toAmount then
    let fromAmount := jsParseFloat (d.fromAmount.getD "")
    let toAmount := jsParseFloat (d.toAmount.getD "")
    if isUSDCToETH t && jsGtZero toAmount then
      Except.ok (jsDiv fromAmount toAmount)
    else if isETHToUSDC t && jsGtZero fromAmount then
      Except.ok (jsDiv toAmount fromAmount)
    else
      Except.error priceErrorMsg
  else
    Except.error priceErrorMsg

/-- Result of `extractTransactionTimestamp`: which source produced the
ISO-8601 string, and from which epoch-millisecond value it was rendered. -/
inductive TsResult where
  | fromTimestamp (ms : ℚ)
  | fromBlockTimestamp (ms : ℚ)
  | currentTime
deriving DecidableEq, Repr

/-- JS test of truthiness plus typeof number on an optional field: yields the
numeric value exactly when the field holds a truthy number (0 is falsy). -/
def truthyNumber (o : Option JsVal) : Option ℚ :=
  match o with
  | some (JsVal.num q) => if q = 0 then none else some q
  | _ => none

/-- `extractTransactionTimestamp` (swap-position-handler.ts): prefer a
truthy numeric `timestamp` (seconds, scaled by 1000), else a truthy
numeric `blockTimestamp` (likewise scaled), else the current time. -/
def extractTransactionTimestamp (d : SwapTransactionData) : TsResult :=
  match truthyNumber d.timestamp with
  | some q => TsResult.fromTimestamp (q * 1000)
  | none =>
    match truthyNumber d.blockTimestamp with
    | some q => TsResult.fromBlockTimestamp (q * 1000)
    | none => TsResult.currentTime

/-- Position side. -/
inductive Side where
  | BUY
  | SELL
deriving DecidableEq, Repr

/-- One record of the `getOpenPositions()` projection handed to the
handler: `{ id, openedAt, side }`.  `openedAt` is the epoch-millisecond
value of the ISO string, i.e. what `new Date(p.openedAt).getTime()`
returns on it (valid date strings assumed, per the data model). -/
structure OpenPosRecord where
  id : String
  openedAt : ℤ
  side : Side
deriving DecidableEq, Repr

/-- `positions.sort((a, b) => time(a) - time(b))[0]` on the non-empty list
`x :: ys`: JS sort with a numeric comparator is stable (ES2019), so index
0 holds the first element attaining the minimum `openedAt`.  The left
fold below keeps the current element on ties, which selects exactly that
first minimum. -/
def oldestFrom (x : OpenPosRecord) (ys : List OpenPosRecord) : OpenPosRecord :=
  ys.foldl (fun acc p => if p.openedAt < acc.openedAt then p else acc) x

/-- A call into the Position Store performed by one handler run. -/
inductive StoreMutation where
  | openPos (side : Side) (priceUsd : JsNum) (openedAt : TsResult)
  | closePos (id : String) (closedAt : TsResult) (closePriceUsd : JsNum)
deriving DecidableEq, Repr

/-- Whether a Position Store mutation touches the position `pid`. -/
def StoreMutation.touches (m : StoreMutation) (pid : String) : Prop :=
  match m with
  | StoreMutation.openPos _ _ _ => False
  | StoreMutation.closePos i _ _ => i = pid

/-- The `PositionAction` reported through the success callback. -/
inductive PosAction where
  | opened (side : Side)
  | closed (side : Side)
deriving DecidableEq, Repr

/-- The callback a handler run invokes, if any. -/
inductive Callback where
  | success (action : PosAction)
  | error (msg : String)
deriving DecidableEq, Repr

/-- Observable effect of one run of the handler body: the Position Store
calls it performed, in order, and the callback it invoked (at most one of
`onSuccess` / `onError`, or none). -/
structure RunResult where
  mutations : List StoreMutation
  callback : Option Callback
deriving DecidableEq, Repr

/-- `handleSwapSuccess` (strict variant, swap-position-handler.ts), the
body of the `setTimeout` callback as one pure function of the transaction
data, the token pair and the `getOpenPositions()` snapshot.  The
`try`/`catch` around the body turns the resolver throw into the
`Failed to manage position` error callback; Position Store calls are
modelled as always succeeding.  The source tests
`openSellPositions.length > 0` and otherwise opens; the match below
distinguishes the same two cases. -/
def handleSwapSuccess (d : SwapTransactionData) (t : SwapTokens)
    (openPositions : List OpenPosRecord) : RunResult :=
  match extractPriceFromSwap d t with
  | Except.error e =>
    { mutations := [],
      callback := some (Callback.error ("Failed to manage position: Error: " ++ e)) }
  | Except.ok ethPrice =>
    if jsLeZero ethPrice then
      { mutations := [], callback := some (Callback.error "Could not determine ETH price") }
    else
      let transactionTimestamp := extractTransactionTimestamp d
      if isUSDCToETH t then
        match openPositions.filter (fun p => decide (p.side = Side.SELL)) with
        | [] =>
          { mutations := [StoreMutation.openPos Side.BUY ethPrice transactionTimestamp],
            callback := some (Callback.success (PosAction.opened Side.BUY)) }
        | p0 :: rest =>
          let oldestSellPosition := oldestFrom p0 rest
          { mutations :=
              [StoreMutation.closePos oldestSellPosition.id transactionTimestamp ethPrice],
            callback := some (Callback.success (PosAction.closed Side.SELL)) }
      else if isETHToUSDC t then
        match openPositions.filter (fun p => decide (p.side = Side.BUY)) with
        | [] =>
          { mutations := [StoreMutation.openPos Side.SELL ethPrice transactionTimestamp],
            callback := some (Callback.success (PosAction.opened Side.SELL)) }
        | p0 :: rest =>
          let oldestBuyPosition := oldestFrom p0 rest
          { mutations :=
              [StoreMutation.closePos oldestBuyPosition.id transactionTimestamp ethPrice],
            callback := some (Callback.success (PosAction.closed Side.BUY)) }
      else
        { mutations := [], callback := none }

/-- Real-time P&L of an OPEN position (PositionsTable.tsx,
`getPerformanceSummary`): BUY profits when the current price is above the
entry price, SELL when it is below. -/
def currentPnL (side : Side) (priceUsd currentEthPrice : ℚ) : ℚ :=
  match side with
  | Side.BUY => currentEthPrice - priceUsd
  | Side.SELL => priceUsd - currentEthPrice

/-- `(Math.abs(currentPnL) / position.priceUsd) * 100 * (currentPnL >= 0 ? 1 : -1)`
(PositionsTable.tsx, `getPerformanceSummary`). -/
def currentPnLPercent (side : Side) (priceUsd currentEthPrice : ℚ) : ℚ :=
  |currentPnL side priceUsd currentEthPrice| / priceUsd * 100 *
    (if 0 ≤ currentPnL side priceUsd currentEthPrice then 1 else -1)

/-- One invocation of `Home.handleSwapSuccess` (Components.tsx), reduced
to its in-flight guard: given the `isCreatingPosition` flag it either
drops the event or delegates the payload to `createPositionFromSwap`,
setting the flag; the flag is only reset later, inside the success and
error callbacks of the delegated reconciliation. -/
structure HomeStep where
  delegated : Option (SwapTransactionData × SwapTokens)
  isCreatingPositionAfter : Bool
deriving DecidableEq, Repr

/-- `Home.handleSwapSuccess` (Components.tsx): the guard
`if (isCreatingPosition) return;` followed by `setIsCreatingPosition(true)`
and the delegation to `createPositionFromSwap`. -/
def homeHandleSwapSuccess (isCreatingPosition : Bool) (d : SwapTransactionData)
    (t : SwapTokens) : HomeStep :=
  if isCreatingPosition then
    { delegated := none, isCreatingPositionAfter := isCreatingPosition }
  else
    { delegated := some (d, t), isCreatingPositionAfter := true }

/-- Position Store mutations performed by one `Home.handleSwapSuccess`
invocation, for any reconciler the delegated call may run: a dropped
invocation runs no reconciler at all. -/
def homeMutations (reconcile : SwapTransactionData → SwapTokens → List StoreMutation)
    (s : HomeStep) : List StoreMutation :=
  match s.delegated with
  | none => []
  | some (d, t) => reconcile d t

/-- The HTTP response of the Coinbase spot endpoint as `getEthSpotPrice`
inspects it: `response.ok`, and the `data.amount` string when the parsed
body has one (`none` models a missing `data`/`amount` field and also a
body on which `response.json()` itself throws). -/
structure CoinbaseResponse where
  ok : Bool
  amount : Option String
deriving DecidableEq, Repr

/-- `EthPriceData` (coinbase-api.ts). -/
structure EthPriceData where
  price : ℚ
  fetched_at : String
  source : String
deriving DecidableEq, Repr

/-- The single message every failure of `getEthSpotPrice` is rethrown as. -/
def spotErrorMsg : String := "Failed to fetch current ETH price"

/-- `getEthSpotPrice` (coinbase-api.ts) as a function of the response and
the current clock reading.  The surrounding `try`/`catch` collapses each
inner throw (bad status, missing `data.amount`, NaN or non-positive
parsed price) into the one `spotErrorMsg` error; no retry exists in the
control flow. -/
def getEthSpotPrice (resp : CoinbaseResponse) (now : String) :
    Except String EthPriceData :=
  if !resp.ok then Except.error spotErrorMsg
  else if !truthyStr resp.amount then Except.error spotErrorMsg
  else
    match jsParseFloat (resp.amount.getD "") with
    | none => Except.error spotErrorMsg
    | some price =>
      if price ≤ 0 then Except.error spotErrorMsg
      else Except.ok { price := price, fetched_at := now, source := "coinbase_spot" }

/-! Evaluation lemmas for the concrete decimal strings used in witnesses. -/

theorem jsParseFloat_eval_2000 : jsParseFloat "2000" = some 2000 := by
  have h : digitsToNat ['2', '0', '0', '0'] = 2000 := by decide
  have h0 : digitsToNat [] = 0 := by decide
  simp [jsParseFloat, h, h0]

theorem jsParseFloat_eval_2200 : jsParseFloat "2200" = some 2200 := by
  have h : digitsToNat ['2', '2', '0', '0'] = 2200 := by decide
  have h0 : digitsToNat [] = 0 := by decide
  simp [jsParseFloat, h, h0]

theorem jsParseFloat_eval_1 : jsParseFloat "1" = some 1 := by
  have h : digitsToNat ['1'] = 1 := by decide
  have h0 : digitsToNat [] = 0 := by decide
  simp [jsParseFloat, h, h0]

theorem jsParseFloat_eval_0 : jsParseFloat "0" = some 0 := by
  have h : digitsToNat ['0'] = 0 := by decide
  have h0 : digitsToNat [] = 0 := by decide
  simp [jsParseFloat, h, h0]

theorem jsParseFloat_eval_100 : jsParseFloat "100" = some 100 := by
  have h : digitsToNat ['1', '0', '0'] = 100 := by decide
  have h0 : digitsToNat [] = 0 := by decide
  simp [jsParseFloat, h, h0]

/-! Structural lemmas about the direction classifiers and the resolver. -/

/-- A pair cannot be classified as both buy-direction and sell-direction. -/
theorem directions_exclusive (t : SwapTokens) :
    ¬(isUSDCToETH t = true ∧ isETHToUSDC t = true) := by
  rintro ⟨h1, h2⟩
  simp only [isUSDCToETH, Bool.and_eq_true, decide_eq_true_eq] at h1
  simp only [isETHToUSDC, Bool.and_eq_true, decide_eq_true_eq] at h2
  exact absurd (h1.1 ▸ h2.1) (by simp)

/-- The strict resolver only succeeds on a classified pair. -/
theorem extract_ok_direction {d : SwapTransactionData} {t : SwapTokens} {x : JsNum}
    (hp : extractPriceFromSwap d t = Except.ok x) :
    isUSDCToETH t = true ∨ isETHToUSDC t = true := by
  unfold extractPriceFromSwap at hp
  by_cases h1 : (truthyStr d.fromAmount && truthyStr d.toAmount) = true
  · rw [if_pos h1] at hp
    simp only [] at hp
    by_cases h2 : (isUSDCToETH t && jsGtZero (jsParseFloat (d.toAmount.getD ""))) = true
    · left
      simp only [Bool.and_eq_true] at h2
      exact h2.1
    · rw [if_neg h2] at hp
      by_cases h3 : (isETHToUSDC t && jsGtZero (jsParseFloat (d.fromAmount.getD ""))) = true
      · right
        simp only [Bool.and_eq_true] at h3
        exact h3.1
      · rw [if_neg h3] at hp
        exact absurd hp (by simp)
  · rw [if_neg h1] at hp
    exact absurd hp (by simp)

/-- On a buy-direction payload the resolver yields the raw quotient
fromAmount / toAmount whenever it succeeds. -/
theorem extract_ok_buy_value {d : SwapTransactionData} {t : SwapTokens} {x : JsNum}
    (hbuy : isUSDCToETH t = true)
    (hp : extractPriceFromSwap d t = Except.ok x) :
    x = jsDiv (jsParseFloat (d.fromAmount.getD "")) (jsParseFloat (d.toAmount.getD "")) := by
  have hsell : isETHToUSDC t = false := by
    by_contra h
    exact directions_exclusive t ⟨hbuy, by revert h; cases isETHToUSDC t <;> simp⟩
  unfold extractPriceFromSwap at hp
  by_cases h1 : (truthyStr d.fromAmount && truthyStr d.toAmount) = true
  · rw [if_pos h1] at hp
    simp only [] at hp
    by_cases h2 : (isUSDCToETH t && jsGtZero (jsParseFloat (d.toAmount.getD ""))) = true
    · rw [if_pos h2] at hp
      exact (Except.ok.inj hp).symm
    · rw [if_neg h2] at hp
      by_cases h3 : (isETHToUSDC t && jsGtZero (jsParseFloat (d.fromAmount.getD ""))) = true
      · simp [hsell] at h3
      · rw [if_neg h3] at hp
        exact absurd hp (by simp)
  · rw [if_neg h1] at hp
    exact absurd hp (by simp)

/-- On a sell-direction payload the resolver yields the raw quotient
toAmount / fromAmount whenever it succeeds. -/
theorem extract_ok_sell_value {d : SwapTransactionData} {t : SwapTokens} {x : JsNum}
    (hsell : isETHToUSDC t = true)
    (hp : extractPriceFromSwap d t = Except.ok x) :
    x = jsDiv (jsParseFloat (d.toAmount.getD "")) (jsParseFloat (d.fromAmount.getD "")) := by
  have hbuy : isUSDCToETH t = false := by
    by_contra h
    exact directions_exclusive t ⟨by revert h; cases isUSDCToETH t <;> simp, hsell⟩
  unfold extractPriceFromSwap at hp
  by_cases h1 : (truthyStr d.fromAmount && truthyStr d.toAmount) = true
  · rw [if_pos h1] at hp
    simp only [] at hp
    by_cases h2 : (isUSDCToETH t && jsGtZero (jsParseFloat (d.toAmount.getD ""))) = true
    · simp [hbuy] at h2
    · rw [if_neg h2] at hp
      by_cases h3 : (isETHToUSDC t && jsGtZero (jsParseFloat (d.fromAmount.getD ""))) = true
      · rw [if_pos h3] at hp
        exact (Except.ok.inj hp).symm
      · rw [if_neg h3] at hp
        exact absurd hp (by simp)
  · rw [if_neg h1] at hp
    exact absurd hp (by simp)

/-! Structural lemmas about the oldest-open-position selection. -/

theorem oldestFrom_cons (x y : OpenPosRecord) (ys : List OpenPosRecord) :
    oldestFrom x (y :: ys) = oldestFrom (if y.openedAt < x.openedAt then y else x) ys := rfl

/-- The selected record is one of the candidates. -/
theorem oldestFrom_mem (x : OpenPosRecord) (ys : List OpenPosRecord) :
    oldestFrom x ys ∈ x :: ys := by
  induction ys generalizing x with
  | nil => simp [oldestFrom]
  | cons y ys ih =>
    rw [oldestFrom_cons]
    by_cases hc : y.openedAt < x.openedAt
    · simp only [hc, if_true]
      rcases List.mem_cons.mp (ih y) with h1 | h1
      · rw [h1]; exact List.mem_cons_of_mem x (List.mem_cons_self y ys)
      · exact List.mem_cons_of_mem x (List.mem_cons_of_mem y h1)
    · simp only [hc, if_false]
      rcases List.mem_cons.mp (ih x) with h1 | h1
      · rw [h1]; exact List.mem_cons_self x _
      · exact List.mem_cons_of_mem x (List.mem_cons_of_mem y h1)

/-- The selected record has the minimum openedAt among the candidates. -/
theorem oldestFrom_le (x : OpenPosRecord) (ys : List OpenPosRecord) :
    ∀ z ∈ x :: ys, (oldestFrom x ys).openedAt ≤ z.openedAt := by
  induction ys generalizing x with
  | nil =>
    intro z hz
    rcases List.mem_cons.mp hz with rfl | h
    · exact le_refl _
    · exact absurd h (List.not_mem_nil z)
  | cons y ys ih =>
    intro z hz
    rw [oldestFrom_cons]
    have hseed : ∀ w ∈ (if y.openedAt < x.openedAt then y else x) :: ys,
        (oldestFrom (if y.openedAt < x.openedAt then y else x) ys).openedAt ≤ w.openedAt :=
      ih (if y.openedAt < x.openedAt then y else x)
    have hself := hseed _ (List.mem_cons_self _ _)
    have hsx : (if y.openedAt < x.openedAt then y else x).openedAt ≤ x.openedAt := by
      by_cases hc : y.openedAt < x.openedAt
      · simp only [hc, if_true]; exact le_of_lt hc
      · simp only [hc, if_false]; exact le_refl _
    have hsy : (if y.openedAt < x.openedAt then y else x).openedAt ≤ y.openedAt := by
      by_cases hc : y.openedAt < x.openedAt
      · simp only [hc, if_true]; exact le_refl _
      · simp only [hc, if_false]; exact le_of_not_lt hc
    rcases List.mem_cons.mp hz with rfl | hz1
    · exact le_trans hself hsx
    · rcases List.mem_cons.mp hz1 with rfl | hz2
      · exact le_trans hself hsy
      · exact hseed z (List.mem_cons_of_mem _ hz2)

/-! Case lemmas describing one handler run on a successfully priced swap. -/

theorem handleSwapSuccess_buy_open {d : SwapTransactionData} {t : SwapTokens}
    {ps : List OpenPosRecord} {p : ℚ}
    (hp : extractPriceFromSwap d t = Except.ok (some p)) (hpos : 0 < p)
    (hbuy : isUSDCToETH t = true)
    (hnil : ps.filter (fun q => decide (q.side = Side.SELL)) = []) :
    handleSwapSuccess d t ps =
      { mutations := [StoreMutation.openPos Side.BUY (some p) (extractTransactionTimestamp d)],
        callback := some (Callback.success (PosAction.opened Side.BUY)) } := by
  have hle : jsLeZero (some p) = false := by
    simp [jsLeZero, not_le.mpr hpos]
  simp [handleSwapSuccess, hp, hle, hbuy, hnil]

theorem handleSwapSuccess_buy_close {d : SwapTransactionData} {t : SwapTokens}
    {ps : List OpenPosRecord} {p : ℚ} {p0 : OpenPosRecord} {rest : List OpenPosRecord}
    (hp : extractPriceFromSwap d t = Except.ok (some p)) (hpos : 0 < p)
    (hbuy : isUSDCToETH t = true)
    (hcons : ps.filter (fun q => decide (q.side = Side.SELL)) = p0 :: rest) :
    handleSwapSuccess d t ps =
      { mutations := [StoreMutation.closePos (oldestFrom p0 rest).id
          (extractTransactionTimestamp d) (some p)],
        callback := some (Callback.success (PosAction.closed Side.SELL)) } := by
  have hle : jsLeZero (some p) = false := by
    simp [jsLeZero, not_le.mpr hpos]
  simp [handleSwapSuccess, hp, hle, hbuy, hcons]

theorem handleSwapSuccess_sell_open {d : SwapTransactionData} {t : SwapTokens}
    {ps : List OpenPosRecord} {p : ℚ}
    (hp : extractPriceFromSwap d t = Except.ok (some p)) (hpos : 0 < p)
    (hsell : isETHToUSDC t = true)
    (hnil : ps.filter (fun q => decide (q.side = Side.BUY)) = []) :
    handleSwapSuccess d t ps =
      { mutations := [StoreMutation.openPos Side.SELL (some p) (extractTransactionTimestamp d)],
        callback := some (Callback.success (PosAction.opened Side.SELL)) } := by
  have hbuy : isUSDCToETH t = false := by
    by_contra h
    exact directions_exclusive t ⟨by revert h; cases isUSDCToETH t <;> simp, hsell⟩
  have hle : jsLeZero (some p) = false := by
    simp [jsLeZero, not_le.mpr hpos]
  simp [handleSwapSuccess, hp, hle, hbuy, hsell, hnil]

theorem handleSwapSuccess_sell_close {d : SwapTransactionData} {t : SwapTokens}
    {ps : List OpenPosRecord} {p : ℚ} {p0 : OpenPosRecord} {rest : List OpenPosRecord}
    (hp : extractPriceFromSwap d t = Except.ok (some p)) (hpos : 0 < p)
    (hsell : isETHToUSDC t = true)
    (hcons : ps.filter (fun q => decide (q.side = Side.BUY)) = p0 :: rest) :
    handleSwapSuccess d t ps =
      { mutations := [StoreMutation.closePos (oldestFrom p0 rest).id
          (extractTransactionTimestamp d) (some p)],
        callback := some (Callback.success (PosAction.closed Side.BUY)) } := by
  have hbuy : isUSDCToETH t = false := by
    by_contra h
    exact directions_exclusive t ⟨by revert h; cases isUSDCToETH t <;> simp, hsell⟩
  have hle : jsLeZero (some p) = false := by
    simp [jsLeZero, not_le.mpr hpos]
  simp [handleSwapSuccess, hp, hle, hbuy, hsell, hcons]

/-! Claim theorems. -/

/-- C1.  Symmetric matching: for every reconciled swap with a successfully
resolved positive price, a buy-direction swap closes one OPEN SELL
position when one exists and otherwise opens exactly one BUY position;
symmetrically for sell-direction swaps against OPEN BUY positions; and in
every such run the handler performs exactly one Position Store mutation
(one openPosition call or one closePosition call, never both). -/
theorem C1_symmetric_matching (d : SwapTransactionData) (t : SwapTokens)
    (ps : List OpenPosRecord) (p : ℚ)
    (hp : extractPriceFromSwap d t = Except.ok (some p)) (hpos : 0 < p) :
    (handleSwapSuccess d t ps).mutations.length = 1 ∧
    (isUSDCToETH t = true →
      (ps.filter (fun q => decide (q.side = Side.SELL)) = [] →
        handleSwapSuccess d t ps =
          { mutations := [StoreMutation.openPos Side.BUY (some p) (extractTransactionTimestamp d)],
            callback := some (Callback.success (PosAction.opened Side.BUY)) }) ∧
      (ps.filter (fun q => decide (q.side = Side.SELL)) ≠ [] →
        ∃ pid, handleSwapSuccess d t ps =
          { mutations := [StoreMutation.closePos pid (extractTransactionTimestamp d) (some p)],
            callback := some (Callback.success (PosAction.closed Side.SELL)) })) ∧
    (isETHToUSDC t = true →
      (ps.filter (fun q => decide (q.side = Side.BUY)) = [] →
        handleSwapSuccess d t ps =
          { mutations := [StoreMutation.openPos Side.SELL (some p) (extractTransactionTimestamp d)],
            callback := some (Callback.success (PosAction.opened Side.SELL)) }) ∧
      (ps.filter (fun q => decide (q.side = Side.BUY)) ≠ [] →
        ∃ pid, handleSwapSuccess d t ps =
          { mutations := [StoreMutation.closePos pid (extractTransactionTimestamp d) (some p)],
            callback := some (Callback.success (PosAction.closed Side.BUY)) })) := by
  have hlen : (handleSwapSuccess d t ps).mutations.length = 1 := by
    rcases extract_ok_direction hp with hbuy | hsell
    · cases hfil : ps.filter (fun q => decide (q.side = Side.SELL)) with
      | nil => simp [handleSwapSuccess_buy_open hp hpos hbuy hfil]
      | cons p0 rest => simp [handleSwapSuccess_buy_close hp hpos hbuy hfil]
    · cases hfil : ps.filter (fun q => decide (q.side = Side.BUY)) with
      | nil => simp [handleSwapSuccess_sell_open hp hpos hsell hfil]
      | cons p0 rest => simp [handleSwapSuccess_sell_close hp hpos hsell hfil]
  refine ⟨hlen, fun hbuy => ⟨fun hnil => handleSwapSuccess_buy_open hp hpos hbuy hnil,
    fun hne => ?_⟩, fun hsell => ⟨fun hnil => handleSwapSuccess_sell_open hp hpos hsell hnil,
    fun hne => ?_⟩⟩
  · cases hfil : ps.filter (fun q => decide (q.side = Side.SELL)) with
    | nil => exact absurd hfil hne
    | cons p0 rest =>
      exact ⟨(oldestFrom p0 rest).id, handleSwapSuccess_buy_close hp hpos hbuy hfil⟩
  · cases hfil : ps.filter (fun q => decide (q.side = Side.BUY)) with
    | nil => exact absurd hfil hne
    | cons p0 rest =>
      exact ⟨(oldestFrom p0 rest).id, handleSwapSuccess_sell_close hp hpos hsell hfil⟩

/-- Witness for C1 at a concrete buy-direction swap against one OPEN SELL
position. -/
theorem C1_symmetric_matching_witness :
    (handleSwapSuccess { fromAmount := some "2000", toAmount := some "1" }
      { fromSymbol := "USDC", toSymbol := "ETH" }
      [{ id := "s1", openedAt := 5, side := Side.SELL }]).mutations.length = 1 :=
  (C1_symmetric_matching _ _ _ 2000
    (by simp [extractPriceFromSwap, truthyStr, isUSDCToETH, jsGtZero, jsDiv,
      jsParseFloat_eval_2000, jsParseFloat_eval_1])
    (by norm_num)).1

/-- C2.  Oldest-first close: given OPEN SELL positions with pairwise
distinct openedAt values (and store-unique ids), a successfully priced
buy-direction swap closes exactly the open SELL position with the minimum
openedAt, and no mutation of the run touches any other position. -/
theorem C2_oldest_first_close (d : SwapTransactionData) (t : SwapTokens)
    (ps : List OpenPosRecord) (p : ℚ) (p0 : OpenPosRecord) (rest : List OpenPosRecord)
    (hp : extractPriceFromSwap d t = Except.ok (some p)) (hpos : 0 < p)
    (hbuy : isUSDCToETH t = true)
    (hfil : ps.filter (fun q => decide (q.side = Side.SELL)) = p0 :: rest)
    (hdistinct : ∀ a ∈ p0 :: rest, ∀ b ∈ p0 :: rest, a.openedAt = b.openedAt → a = b)
    (hids : ∀ a ∈ ps, ∀ b ∈ ps, a.id = b.id → a = b) :
    ∃ target ∈ p0 :: rest,
      (∀ q ∈ p0 :: rest, q ≠ target → target.openedAt < q.openedAt) ∧
      (handleSwapSuccess d t ps).mutations =
        [StoreMutation.closePos target.id (extractTransactionTimestamp d) (some p)] ∧
      (∀ q ∈ ps, q ≠ target →
        ∀ m ∈ (handleSwapSuccess d t ps).mutations, ¬ m.touches q.id) := by
  refine ⟨oldestFrom p0 rest, oldestFrom_mem p0 rest, ?_, ?_, ?_⟩
  · intro q hq hne
    have hle := oldestFrom_le p0 rest q hq
    rcases lt_or_eq_of_le hle with hlt | heq
    · exact hlt
    · exact absurd (hdistinct q hq (oldestFrom p0 rest) (oldestFrom_mem p0 rest) heq.symm) hne
  · rw [handleSwapSuccess_buy_close hp hpos hbuy hfil]
  · intro q hq hne m hm htouch
    rw [handleSwapSuccess_buy_close hp hpos hbuy hfil] at hm
    rcases List.mem_singleton.mp hm with rfl
    have hid : (oldestFrom p0 rest).id = q.id := htouch
    have htmem : oldestFrom p0 rest ∈ ps := by
      have : oldestFrom p0 rest ∈ ps.filter (fun q => decide (q.side = Side.SELL)) := by
        rw [hfil]; exact oldestFrom_mem p0 rest
      exact List.mem_of_mem_filter this
    exact hne (hids q hq (oldestFrom p0 rest) htmem hid.symm)

/-- Witness for C2 at a concrete list of two OPEN SELL positions with
distinct openedAt. -/
theorem C2_oldest_first_close_witness :
    ∃ target ∈ [({ id := "s1", openedAt := 5, side := Side.SELL } : OpenPosRecord),
      { id := "s2", openedAt := 3, side := Side.SELL }],
      (∀ q ∈ [({ id := "s1", openedAt := 5, side := Side.SELL } : OpenPosRecord),
        { id := "s2", openedAt := 3, side := Side.SELL }],
        q ≠ target → target.openedAt < q.openedAt) ∧
      (handleSwapSuccess { fromAmount := some "2000", toAmount := some "1" }
        { fromSymbol := "USDC", toSymbol := "ETH" }
        [{ id := "b1", openedAt := 10, side := Side.BUY },
         { id := "s1", openedAt := 5, side := Side.SELL },
         { id := "s2", openedAt := 3, side := Side.SELL }]).mutations =
        [StoreMutation.closePos target.id
          (extractTransactionTimestamp { fromAmount := some "2000", toAmount := some "1" })
          (some 2000)] ∧
      (∀ q ∈ [({ id := "b1", openedAt := 10, side := Side.BUY } : OpenPosRecord),
        { id := "s1", openedAt := 5, side := Side.SELL },
        { id := "s2", openedAt := 3, side := Side.SELL }], q ≠ target →
        ∀ m ∈ (handleSwapSuccess { fromAmount := some "2000", toAmount := some "1" }
          { fromSymbol := "USDC", toSymbol := "ETH" }
          [{ id := "b1", openedAt := 10, side := Side.BUY },
           { id := "s1", openedAt := 5, side := Side.SELL },
           { id := "s2", openedAt := 3, side := Side.SELL }]).mutations,
          ¬ m.touches q.id) :=
  C2_oldest_first_close _ _ _ 2000 _ _
    (by simp [extractPriceFromSwap, truthyStr, isUSDCToETH, jsGtZero, jsDiv,
      jsParseFloat_eval_2000, jsParseFloat_eval_1])
    (by norm_num) (by decide) (by decide) (by decide) (by decide)

/-- C3 counterexample: on the concrete buy-direction payload with
fromAmount "0" and toAmount "1" the resolver succeeds with price 0 — it
neither fails on the non-positive fromAmount nor returns a positive unit
price, contradicting the claimed failure condition. -/
theorem C3_counterexample :
    extractPriceFromSwap { fromAmount := some "0", toAmount := some "1" }
      { fromSymbol := "USDC", toSymbol := "ETH" } = Except.ok (some 0) ∧
    isUSDCToETH { fromSymbol := "USDC", toSymbol := "ETH" } = true ∧
    jsParseFloat "0" = some 0 ∧ ¬(0 : ℚ) > 0 := by
  refine ⟨?_, by decide, jsParseFloat_eval_0, by norm_num⟩
  simp [extractPriceFromSwap, truthyStr, isUSDCToETH, jsGtZero, jsDiv,
    jsParseFloat_eval_0, jsParseFloat_eval_1]

/-- C3 (amended).  The strict resolver fails — always with the single
PriceUnavailable message and never via any external feed — exactly when
the pair is unclassifiable, an amount string is absent or empty, or the
divisor-side amount (toAmount for buy-direction, fromAmount for
sell-direction) does not parse to a positive number; whenever it succeeds
it returns the raw stable/volatile quotient of the parsed amounts, which
need not be positive. -/
theorem C3_amended_failure_condition (d : SwapTransactionData) (t : SwapTokens) :
    (extractPriceFromSwap d t = Except.error priceErrorMsg ↔
      (isUSDCToETH t = false ∧ isETHToUSDC t = false) ∨
      truthyStr d.fromAmount = false ∨ truthyStr d.toAmount = false ∨
      (isUSDCToETH t = true ∧ jsGtZero (jsParseFloat (d.toAmount.getD "")) = false) ∨
      (isETHToUSDC t = true ∧ jsGtZero (jsParseFloat (d.fromAmount.getD "")) = false)) ∧
    (∀ x, extractPriceFromSwap d t = Except.ok x →
      (isUSDCToETH t = true ∧
        x = jsDiv (jsParseFloat (d.fromAmount.getD "")) (jsParseFloat (d.toAmount.getD ""))) ∨
      (isETHToUSDC t = true ∧
        x = jsDiv (jsParseFloat (d.toAmount.getD "")) (jsParseFloat (d.fromAmount.getD "")))) := by
  constructor
  · constructor
    · intro herr
      by_cases h1 : (truthyStr d.fromAmount && truthyStr d.toAmount) = true
      · unfold extractPriceFromSwap at herr
        rw [if_pos h1] at herr
        simp only [] at herr
        by_cases h2 : (isUSDCToETH t && jsGtZero (jsParseFloat (d.toAmount.getD ""))) = true
        · rw [if_pos h2] at herr
          exact absurd herr (by simp)
        · rw [if_neg h2] at herr
          by_cases h3 : (isETHToUSDC t && jsGtZero (jsParseFloat (d.fromAmount.getD ""))) = true
          · rw [if_pos h3] at herr
            exact absurd herr (by simp)
          · by_cases hu : isUSDCToETH t = true
            · simp only [hu, Bool.true_and] at h2
              exact Or.inr (Or.inr (Or.inr (Or.inl
                ⟨hu, by revert h2; cases jsGtZero (jsParseFloat (d.toAmount.getD "")) <;> simp⟩)))
            · have hu' : isUSDCToETH t = false := by
                revert hu; cases isUSDCToETH t <;> simp
              by_cases hv : isETHToUSDC t = true
              · simp only [hv, Bool.true_and] at h3
                exact Or.inr (Or.inr (Or.inr (Or.inr
                  ⟨hv, by revert h3; cases jsGtZero (jsParseFloat (d.fromAmount.getD "")) <;> simp⟩)))
              · have hv' : isETHToUSDC t = false := by
                  revert hv; cases isETHToUSDC t <;> simp
                exact Or.inl ⟨hu', hv'⟩
      · rcases Bool.eq_false_or_eq_true (truthyStr d.fromAmount) with hf | hf
        · rcases Bool.eq_false_or_eq_true (truthyStr d.toAmount) with hg | hg
          · exact absurd (by rw [hf, hg]; rfl) h1
          · exact Or.inr (Or.inr (Or.inl hg))
        · exact Or.inr (Or.inl hf)
    · intro hdisj
      rcases hdisj with ⟨hu, hv⟩ | hf | hg | ⟨hu, hg2⟩ | ⟨hv, hg1⟩
      · simp [extractPriceFromSwap, hu, hv]
      · simp [extractPriceFromSwap, hf]
      · simp [extractPriceFromSwap, hg]
      · have hv' : isETHToUSDC t = false := by
          by_contra h
          exact directions_exclusive t ⟨hu, by revert h; cases isETHToUSDC t <;> simp⟩
        simp [extractPriceFromSwap, hu, hg2, hv']
      · have hu' : isUSDCToETH t = false := by
          by_contra h
          exact directions_exclusive t ⟨by revert h; cases isUSDCToETH t <;> simp, hv⟩
        simp [extractPriceFromSwap, hv, hg1, hu']
  · intro x hx
    rcases extract_ok_direction hx with hbuy | hsell
    · exact Or.inl ⟨hbuy, extract_ok_buy_value hbuy hx⟩
    · exact Or.inr ⟨hsell, extract_ok_sell_value hsell hx⟩

/-- Witness for C3 (amended): an absent fromAmount makes the resolver
fail with the PriceUnavailable message. -/
theorem C3_amended_failure_condition_witness :
    extractPriceFromSwap { toAmount := some "1" }
      { fromSymbol := "USDC", toSymbol := "ETH" } = Except.error priceErrorMsg :=
  (C3_amended_failure_condition _ _).1.mpr (Or.inr (Or.inl (by decide)))

/-- C4.  Price value: on a buy-direction swap every successful resolution
equals fromAmount / toAmount, on a sell-direction swap toAmount /
fromAmount, and the position opened when no opposing OPEN position exists
records exactly that quotient as its price. -/
theorem C4_price_value (d : SwapTransactionData) (t : SwapTokens) :
    (isUSDCToETH t = true → ∀ x, extractPriceFromSwap d t = Except.ok x →
      x = jsDiv (jsParseFloat (d.fromAmount.getD "")) (jsParseFloat (d.toAmount.getD ""))) ∧
    (isETHToUSDC t = true → ∀ x, extractPriceFromSwap d t = Except.ok x →
      x = jsDiv (jsParseFloat (d.toAmount.getD "")) (jsParseFloat (d.fromAmount.getD ""))) ∧
    (∀ p ps, extractPriceFromSwap d t = Except.ok (some p) → 0 < p →
      isUSDCToETH t = true →
      ps.filter (fun q => decide (q.side = Side.SELL)) = [] →
      (handleSwapSuccess d t ps).mutations =
        [StoreMutation.openPos Side.BUY
          (jsDiv (jsParseFloat (d.fromAmount.getD "")) (jsParseFloat (d.toAmount.getD "")))
          (extractTransactionTimestamp d)]) ∧
    (∀ p ps, extractPriceFromSwap d t = Except.ok (some p) → 0 < p →
      isETHToUSDC t = true →
      ps.filter (fun q => decide (q.side = Side.BUY)) = [] →
      (handleSwapSuccess d t ps).mutations =
        [StoreMutation.openPos Side.SELL
          (jsDiv (jsParseFloat (d.toAmount.getD "")) (jsParseFloat (d.fromAmount.getD "")))
          (extractTransactionTimestamp d)]) := by
  refine ⟨fun hbuy x hx => extract_ok_buy_value hbuy hx,
    fun hsell x hx => extract_ok_sell_value hsell hx,
    fun p ps hp hpos hbuy hnil => ?_, fun p ps hp hpos hsell hnil => ?_⟩
  · rw [handleSwapSuccess_buy_open hp hpos hbuy hnil, ← extract_ok_buy_value hbuy hp]
  · rw [handleSwapSuccess_sell_open hp hpos hsell hnil, ← extract_ok_sell_value hsell hp]

/-- Witness for C4 at the concrete swap of 2000 USDC for 1 ETH with empty
Position Store. -/
theorem C4_price_value_witness :
    (handleSwapSuccess { fromAmount := some "2000", toAmount := some "1" }
      { fromSymbol := "USDC", toSymbol := "ETH" } []).mutations =
      [StoreMutation.openPos Side.BUY
        (jsDiv (jsParseFloat "2000") (jsParseFloat "1"))
        (extractTransactionTimestamp { fromAmount := some "2000", toAmount := some "1" })] :=
  (C4_price_value _ _).2.2.1 2000 []
    (by simp [extractPriceFromSwap, truthyStr, isUSDCToETH, jsGtZero, jsDiv,
      jsParseFloat_eval_2000, jsParseFloat_eval_1])
    (by norm_num) (by decide) rfl

/-- C5.  Error containment: when price resolution fails — by throwing, or
by yielding a non-positive price — the run performs no Position Store
mutation and reports only through the error callback (the model is total,
so nothing propagates to the swap-completion caller). -/
theorem C5_error_containment (d : SwapTransactionData) (t : SwapTokens)
    (ps : List OpenPosRecord) :
    (∀ e, extractPriceFromSwap d t = Except.error e →
      handleSwapSuccess d t ps =
        { mutations := [],
          callback := some (Callback.error ("Failed to manage position: Error: " ++ e)) }) ∧
    (∀ v, extractPriceFromSwap d t = Except.ok v → jsLeZero v = true →
      handleSwapSuccess d t ps =
        { mutations := [],
          callback := some (Callback.error "Could not determine ETH price") }) := by
  constructor
  · intro e he
    simp [handleSwapSuccess, he]
  · intro v hv hle
    simp [handleSwapSuccess, hv, hle]

/-- Witness for C5: a buy-direction swap with missing toAmount yields only
the error callback and no mutation. -/
theorem C5_error_containment_witness :
    handleSwapSuccess { fromAmount := some "2000" }
      { fromSymbol := "USDC", toSymbol := "ETH" } [] =
      { mutations := [],
        callback := some (Callback.error ("Failed to manage position: Error: " ++ priceErrorMsg)) } :=
  (C5_error_containment _ _ _).1 priceErrorMsg (by simp [extractPriceFromSwap, truthyStr])

/-- C6 (actual behaviour at the failing input).  An unsupported pair
(ETH to DAI) reaches the strict resolver first, which always throws for an
unclassifiable pair, so the run invokes the error callback; the silent
no-op branch written for unsupported pairs is unreachable.  The Position
Store is still untouched. -/
theorem C6_unsupported_pair_reports_error :
    handleSwapSuccess { fromAmount := some "1", toAmount := some "2000" }
      { fromSymbol := "ETH", toSymbol := "DAI" } [] =
      { mutations := [],
        callback := some (Callback.error
          ("Failed to manage position: Error: " ++ priceErrorMsg)) } := by
  have hu : isUSDCToETH { fromSymbol := "ETH", toSymbol := "DAI" } = false := by decide
  have hv : isETHToUSDC { fromSymbol := "ETH", toSymbol := "DAI" } = false := by decide
  have hext : extractPriceFromSwap { fromAmount := some "1", toAmount := some "2000" }
      { fromSymbol := "ETH", toSymbol := "DAI" } = Except.error priceErrorMsg := by
    simp [extractPriceFromSwap, hu, hv]
  simp [handleSwapSuccess, hext]

/-- Helper: a value produced by the truthy-number test is non-zero. -/
theorem truthyNumber_ne_zero {o : Option JsVal} {q : ℚ}
    (h : truthyNumber o = some q) : q ≠ 0 := by
  match o with
  | none => simp [truthyNumber] at h
  | some JsVal.nonNum => simp [truthyNumber] at h
  | some (JsVal.num r) =>
    by_cases hr : r = 0
    · simp [truthyNumber, hr] at h
    · simp only [truthyNumber, hr, if_false] at h
      rcases Option.some.inj h with rfl
      exact hr

/-- C7.  P&L convention: for positive entry price, absolute P&L is
closePrice minus openPrice for BUY and openPrice minus closePrice for
SELL, the percentage equals absolute / openPrice * 100 with the sign of
the absolute value, and the two concrete examples evaluate to +200 and
+10 percent. -/
theorem C7_pnl_convention (openPrice closePrice : ℚ) (h : 0 < openPrice) :
    currentPnL Side.BUY openPrice closePrice = closePrice - openPrice ∧
    currentPnL Side.SELL openPrice closePrice = openPrice - closePrice ∧
    (∀ side, currentPnLPercent side openPrice closePrice =
      currentPnL side openPrice closePrice / openPrice * 100) ∧
    (∀ side,
      (0 < currentPnL side openPrice closePrice ↔
        0 < currentPnLPercent side openPrice closePrice) ∧
      (currentPnL side openPrice closePrice < 0 ↔
        currentPnLPercent side openPrice closePrice < 0) ∧
      (currentPnL side openPrice closePrice = 0 ↔
        currentPnLPercent side openPrice closePrice = 0)) ∧
    currentPnL Side.BUY 2000 2200 = 200 ∧ currentPnLPercent Side.BUY 2000 2200 = 10 ∧
    currentPnL Side.SELL 2000 1800 = 200 ∧ currentPnLPercent Side.SELL 2000 1800 = 10 := by
  have key : ∀ side, currentPnLPercent side openPrice closePrice =
      currentPnL side openPrice closePrice / openPrice * 100 := by
    intro side
    unfold currentPnLPercent
    by_cases hc : 0 ≤ currentPnL side openPrice closePrice
    · rw [if_pos hc, abs_of_nonneg hc]
      ring
    · rw [if_neg hc, abs_of_neg (lt_of_not_ge hc)]
      ring
  have hsign : ∀ side,
      (0 < currentPnL side openPrice closePrice ↔
        0 < currentPnLPercent side openPrice closePrice) ∧
      (currentPnL side openPrice closePrice < 0 ↔
        currentPnLPercent side openPrice closePrice < 0) ∧
      (currentPnL side openPrice closePrice = 0 ↔
        currentPnLPercent side openPrice closePrice = 0) := by
    intro side
    rw [key side]
    refine ⟨⟨fun hp => mul_pos (div_pos hp h) (by norm_num), fun hp => ?_⟩,
      ⟨fun hn => ?_, fun hn => ?_⟩, ⟨fun h0 => by rw [h0]; ring, fun h0 => ?_⟩⟩
    · by_contra hnp
      push_neg at hnp
      have h1 : currentPnL side openPrice closePrice / openPrice ≤ 0 :=
        div_nonpos_of_nonpos_of_nonneg hnp (le_of_lt h)
      nlinarith
    · have h1 : currentPnL side openPrice closePrice / openPrice < 0 :=
        div_neg_of_neg_of_pos hn h
      nlinarith
    · by_contra hnn
      push_neg at hnn
      have h1 : 0 ≤ currentPnL side openPrice closePrice / openPrice :=
        div_nonneg hnn (le_of_lt h)
      nlinarith
    · have h1 : currentPnL side openPrice closePrice / openPrice = 0 := by
        by_contra hne
        rcases lt_or_gt_of_ne hne with hlt | hgt
        · nlinarith
        · nlinarith
      rcases div_eq_zero_iff.mp h1 with h2 | h2
      · exact h2
      · exact absurd h2 (ne_of_gt h)
  refine ⟨by simp [currentPnL], by simp [currentPnL], key, hsign, ?_, ?_, ?_, ?_⟩
  · norm_num [currentPnL]
  · norm_num [currentPnLPercent, currentPnL]
  · norm_num [currentPnL]
  · norm_num [currentPnLPercent, currentPnL]

/-- Witness for C7 at entry price 2000 and current price 2200. -/
theorem C7_pnl_convention_witness :
    currentPnL Side.BUY 2000 2200 = 2200 - 2000 :=
  (C7_pnl_convention 2000 2200 (by norm_num)).1

/-- C8.  In-flight guard: an invocation of the Home swap-success handler
that starts while a previous invocation is still reconciling (flag still
set, callbacks not yet run) is dropped — it delegates nothing to the
reconciler and performs no Position Store mutation. -/
theorem C8_inflight_guard (d1 : SwapTransactionData) (t1 : SwapTokens)
    (d2 : SwapTransactionData) (t2 : SwapTokens)
    (reconcile : SwapTransactionData → SwapTokens → List StoreMutation) :
    (homeHandleSwapSuccess false d1 t1).delegated = some (d1, t1) ∧
    (homeHandleSwapSuccess false d1 t1).isCreatingPositionAfter = true ∧
    (homeHandleSwapSuccess
      (homeHandleSwapSuccess false d1 t1).isCreatingPositionAfter d2 t2).delegated = none ∧
    homeMutations reconcile
      (homeHandleSwapSuccess
        (homeHandleSwapSuccess false d1 t1).isCreatingPositionAfter d2 t2) = [] := by
  simp [homeHandleSwapSuccess, homeMutations]

/-- C9.  Spot-price validation: `getEthSpotPrice` either returns a
positive price tagged coinbase_spot with the fetch timestamp, or fails
with the single error message; bad HTTP status, missing amount, and a
NaN or non-positive parsed amount each force that failure. -/
theorem C9_spot_price_validation (resp : CoinbaseResponse) (now : String) :
    ((∃ p, 0 < p ∧ getEthSpotPrice resp now =
        Except.ok { price := p, fetched_at := now, source := "coinbase_spot" }) ∨
      getEthSpotPrice resp now = Except.error spotErrorMsg) ∧
    (resp.ok = false → getEthSpotPrice resp now = Except.error spotErrorMsg) ∧
    (truthyStr resp.amount = false → getEthSpotPrice resp now = Except.error spotErrorMsg) ∧
    (∀ s, resp.amount = some s → jsParseFloat s = none →
      getEthSpotPrice resp now = Except.error spotErrorMsg) ∧
    (∀ s q, resp.amount = some s → jsParseFloat s = some q → q ≤ 0 →
      getEthSpotPrice resp now = Except.error spotErrorMsg) := by
  refine ⟨?_, ?_, ?_, ?_, ?_⟩
  · unfold getEthSpotPrice
    by_cases hok : resp.ok = true
    · by_cases ht : truthyStr resp.amount = true
      · cases hparse : jsParseFloat (resp.amount.getD "") with
        | none => simp [hok, ht, hparse]
        | some q =>
          by_cases hq : q ≤ 0
          · simp [hok, ht, hparse, hq]
          · refine Or.inl ⟨q, lt_of_not_ge hq, ?_⟩
            simp [hok, ht, hparse, hq]
      · simp [hok, ht]
    · simp [hok]
  · intro hko
    simp [getEthSpotPrice, hko]
  · intro ht
    cases hok : resp.ok <;> simp [getEthSpotPrice, hok, ht]
  · intro s hs hp
    cases hok : resp.ok
    · simp [getEthSpotPrice, hok]
    · by_cases ht : truthyStr resp.amount = true
      · simp [getEthSpotPrice, hok, ht, hs, hp]
      · simp [getEthSpotPrice, hok, ht]
  · intro s q hs hp hq
    cases hok : resp.ok
    · simp [getEthSpotPrice, hok]
    · by_cases ht : truthyStr resp.amount = true
      · simp [getEthSpotPrice, hok, ht, hs, hp, hq]
      · simp [getEthSpotPrice, hok, ht]

/-- Witness for C9: a non-2xx response fails with the single message. -/
theorem C9_spot_price_validation_witness :
    getEthSpotPrice { ok := false, amount := some "100" } "t0" =
      Except.error spotErrorMsg :=
  (C9_spot_price_validation { ok := false, amount := some "100" } "t0").2.1 rfl

/-- C10.  Timestamp zero treated as absent: when the timestamp field is 0,
missing, or not a number, the extractor falls back to a non-zero numeric
blockTimestamp (scaled to milliseconds) and else to the current time; and
no run of the extractor ever produces the epoch instant 0 from either
numeric field. -/
theorem C10_timestamp_zero_absent (d : SwapTransactionData) :
    ((d.timestamp = some (JsVal.num 0) ∨ d.timestamp = none ∨
        d.timestamp = some JsVal.nonNum) →
      (∀ b, d.blockTimestamp = some (JsVal.num b) → b ≠ 0 →
        extractTransactionTimestamp d = TsResult.fromBlockTimestamp (b * 1000)) ∧
      (truthyNumber d.blockTimestamp = none →
        extractTransactionTimestamp d = TsResult.currentTime)) ∧
    extractTransactionTimestamp d ≠ TsResult.fromTimestamp 0 ∧
    extractTransactionTimestamp d ≠ TsResult.fromBlockTimestamp 0 := by
  constructor
  · intro hts
    have htn : truthyNumber d.timestamp = none := by
      rcases hts with h | h | h <;> simp [truthyNumber, h]
    constructor
    · intro b hb hbne
      unfold extractTransactionTimestamp
      rw [htn]
      simp [truthyNumber, hb, hbne]
    · intro hbn
      unfold extractTransactionTimestamp
      rw [htn, hbn]
  · cases ht : truthyNumber d.timestamp with
    | some q =>
      have hq := truthyNumber_ne_zero ht
      unfold extractTransactionTimestamp
      rw [ht]
      constructor
      · intro hcontr
        simp only [TsResult.fromTimestamp.injEq] at hcontr
        rcases mul_eq_zero.mp hcontr with h0 | h0
        · exact hq h0
        · norm_num at h0
      · simp
    | none =>
      cases hb : truthyNumber d.blockTimestamp with
      | some b =>
        have hbne := truthyNumber_ne_zero hb
        unfold extractTransactionTimestamp
        rw [ht, hb]
        constructor
        · simp
        · intro hcontr
          simp only [TsResult.fromBlockTimestamp.injEq] at hcontr
          rcases mul_eq_zero.mp hcontr with h0 | h0
          · exact hbne h0
          · norm_num at h0
      | none =>
        unfold extractTransactionTimestamp
        rw [ht, hb]
        constructor <;> simp

/-- Witness for C10: a zero transaction timestamp is skipped in favour of
the block timestamp. -/
theorem C10_timestamp_zero_absent_witness :
    extractTransactionTimestamp
      { timestamp := some (JsVal.num 0), blockTimestamp := some (JsVal.num 1700000000) } =
      TsResult.fromBlockTimestamp (1700000000 * 1000) :=
  ((C10_timestamp_zero_absent _).1 (Or.inl rfl)).1 1700000000 rfl (by norm_num)

end BuySmart
